import Mathlib

set_option maxRecDepth 100000

/-
  A verification development for the invoice application's template
  renderer (lib/renderTemplate), its keyset pagination filter and its
  PDF export route.

  The definitions below are shallow embeddings of the TypeScript source:
  pure functions become Lean functions on String / List Char, the
  JavaScript template-literal evaluation performed through the Function
  constructor is embedded as a small parser and interpreter for exactly
  the expression language the compiler emits, and the evaluator's
  side effect (a debug file write) is recorded in an explicit effect
  trace.  Loops from the source are written as fuel-indexed recursions;
  the fuel is always chosen large enough that it is never exhausted on
  the inputs considered.
-/

/-! ### Character constants

  Named characters of the template dialect, so the scanner reads close
  to the source. -/

def lbrace : Char := Char.ofNat 123

def rbrace : Char := Char.ofNat 125

def btick : Char := Char.ofNat 96

def squote : Char := Char.ofNat 39

def dquote : Char := Char.ofNat 34

def bslash : Char := Char.ofNat 92

def dollar : Char := '$'

/-- Sentinel for the out-of-bounds reads the source performs
  (`chars[i-1]`/`chars[i+1]` yield the empty string in JS, which
  compares unequal to every character). -/
def nulChar : Char := Char.ofNat 0

/-! ### List-of-characters utilities mirroring the JS string methods -/

/-- JS `String.prototype.indexOf`: first index at which `pat` occurs. -/
def indexOfSub (l pat : List Char) : Option Nat :=
  match l with
  | [] => if pat = [] then some 0 else none
  | _ :: rest =>
    if pat.isPrefixOf l then some 0
    else (indexOfSub rest pat).map (· + 1)

/-- JS `String.prototype.includes`. -/
def containsSub (s pat : String) : Bool :=
  (indexOfSub s.data pat.data).isSome

/-- JS `str.substring(a, b)` (for `a ≤ b`). -/
def subStr (l : List Char) (a b : Nat) : String :=
  String.mk ((l.drop a).take (b - a))

/-- JS `String.prototype.trim` (computed on the character list). -/
def jsTrim (s : String) : String :=
  String.mk (((s.data.dropWhile Char.isWhitespace).reverse.dropWhile
    Char.isWhitespace).reverse)

/-- JS `String.prototype.startsWith`. -/
def jsStartsWith (s pat : String) : Bool :=
  pat.data.isPrefixOf s.data

/-- JS `String.prototype.endsWith`. -/
def jsEndsWith (s pat : String) : Bool :=
  pat.data.reverse.isPrefixOf s.data.reverse

/-- JS `Array.prototype.join` on already-stringified pieces. -/
def joinWithSep (sep : String) : List String → String
  | [] => ""
  | x :: xs => xs.foldl (fun acc y => acc ++ sep ++ y) x

/-- Advance past the current line: the inner loop of the line-comment
  branch of `parseJsxExpression` (`while (i < chars.length && chars[i]
  !== '\n') i++`). -/
def skipLineEndGo : Nat → List Char → Nat → Nat
  | 0, _, i => i
  | f + 1, chars, i =>
    if i < chars.length then
      if chars.getD i nulChar = '\n' then i else skipLineEndGo f chars (i + 1)
    else i

def skipLineEnd (chars : List Char) (i : Nat) : Nat :=
  skipLineEndGo (chars.length + 1) chars i

/-- Advance past a block comment: the inner loop of the block-comment
  branch of `parseJsxExpression` (entered with `i` already past the
  opening of the comment). -/
def skipBlockEndGo : Nat → List Char → Nat → Nat
  | 0, _, i => i
  | f + 1, chars, i =>
    if i + 1 < chars.length then
      if chars.getD i nulChar = '*' ∧ chars.getD (i + 1) nulChar = '/' then i + 2
      else skipBlockEndGo f chars (i + 1)
    else i

def skipBlockEnd (chars : List Char) (i : Nat) : Nat :=
  skipBlockEndGo (chars.length + 1) chars i

/-- The regex test `/\.map\s*\(/.test(peekAhead)` from
  `parseJsxExpression`: does the list contain `.map` followed by
  optional whitespace and an opening parenthesis? -/
def hasMapCall : List Char → Bool
  | [] => false
  | c :: rest =>
    (c = '.' ∧ ['m', 'a', 'p'].isPrefixOf rest ∧
      ((rest.drop 3).dropWhile Char.isWhitespace).head? = some '(' : Bool)
    || hasMapCall rest

/-! ### The expression scanner

  `pjeScan` is the main `while` loop of `parseJsxExpression`
  (lib/renderTemplate): it walks the characters of a `{...}` expression
  starting just after the opening brace, tracking brace/paren/bracket
  depth, string context and comments, collecting the expression body,
  and flagging top-level ternary `?` and logical `&&` operators. -/

structure ScanResult where
  raw : List Char
  endIndex : Nat
  isTernary : Bool
  isAnd : Bool
deriving Repr, DecidableEq

def pjeScan (chars : List Char) : Nat → Nat → Int → Int → Int → Option Char →
    Bool → Bool → List Char → ScanResult
  | 0, i, _, _, _, _, isT, isA, acc => ⟨acc.reverse, i, isT, isA⟩
  | fuel + 1, i, braceDepth, parenDepth, bracketDepth, inString, isT, isA, acc =>
    if i < chars.length ∧ braceDepth > 0 then
      let c := chars.getD i nulChar
      let prevChar := if i = 0 then nulChar else chars.getD (i - 1) nulChar
      let nextChar := chars.getD (i + 1) nulChar
      match inString with
      | some q =>
        let ns := if c = q ∧ prevChar ≠ bslash then none else some q
        pjeScan chars fuel (i + 1) braceDepth parenDepth bracketDepth ns isT isA
          (c :: acc)
      | none =>
        if (c = dquote ∨ c = squote ∨ c = btick) ∧ prevChar ≠ bslash then
          pjeScan chars fuel (i + 1) braceDepth parenDepth bracketDepth (some c)
            isT isA (c :: acc)
        else if c = '/' ∧ nextChar = '/' then
          pjeScan chars fuel (skipLineEnd chars i) braceDepth parenDepth
            bracketDepth none isT isA acc
        else if c = '/' ∧ nextChar = '*' then
          pjeScan chars fuel (skipBlockEnd chars (i + 2)) braceDepth parenDepth
            bracketDepth none isT isA acc
        else if c = rbrace ∧ braceDepth - 1 = 0 then
          ⟨acc.reverse, i, isT, isA⟩
        else
          let bd := if c = lbrace then braceDepth + 1
            else if c = rbrace then braceDepth - 1 else braceDepth
          let pd := if c = '(' then parenDepth + 1
            else if c = ')' then parenDepth - 1 else parenDepth
          let kd := if c = '[' then bracketDepth + 1
            else if c = ']' then bracketDepth - 1 else bracketDepth
          let isT' := isT || (c == '?' && nextChar != '.' && bd == 1 && pd == 0)
          let isA' := isA || (c == '&' && nextChar == '&' && bd == 1 && pd == 0)
          pjeScan chars fuel (i + 1) bd pd kd none isT' isA' (c :: acc)
    else ⟨acc.reverse, i, isT, isA⟩

/-! ### Reader loops of `convertMapExpression` -/

/-- Parameter list reader for `.map((params) => ...)`: the
  paren-wrapped-parameter loop of `convertMapExpression`.  Returns the
  collected characters and the index just past the closing paren. -/
def readParenParamsGo : Nat → List Char → Nat → Int → List Char → List Char × Nat
  | 0, _, i, _, acc => (acc.reverse, i)
  | f + 1, l, i, depth, acc =>
    if i < l.length ∧ depth > 0 then
      let c := l.getD i nulChar
      if c = '(' then readParenParamsGo f l (i + 1) (depth + 1) (c :: acc)
      else if c = ')' then
        if depth - 1 = 0 then (acc.reverse, i + 1)
        else readParenParamsGo f l (i + 1) (depth - 1) (c :: acc)
      else readParenParamsGo f l (i + 1) depth (c :: acc)
    else (acc.reverse, i)

def readParenParams (l : List Char) (i : Nat) (depth : Int) (acc : List Char) :
    List Char × Nat :=
  readParenParamsGo (l.length + 1) l i depth acc

/-- Bare-parameter reader: collect characters until the arrow token. -/
def readUntilArrowGo : Nat → List Char → Nat → List Char → List Char × Nat
  | 0, _, i, acc => (acc.reverse, i)
  | f + 1, l, i, acc =>
    if i < l.length then
      if ['=', '>'].isPrefixOf (l.drop i) then (acc.reverse, i)
      else readUntilArrowGo f l (i + 1) (l.getD i nulChar :: acc)
    else (acc.reverse, i)

def readUntilArrow (l : List Char) (i : Nat) (acc : List Char) : List Char × Nat :=
  readUntilArrowGo (l.length + 1) l i acc

/-- `while (i < expr.length && /\s/.test(expr[i])) i++`. -/
def skipWsIdxGo : Nat → List Char → Nat → Nat
  | 0, _, i => i
  | f + 1, l, i =>
    if i < l.length then
      if (l.getD i nulChar).isWhitespace then skipWsIdxGo f l (i + 1) else i
    else i

def skipWsIdx (l : List Char) (i : Nat) : Nat := skipWsIdxGo (l.length + 1) l i

/-- Body reader for a `(jsx)` arrow body: stops at the matching close
  paren, which is not consumed (the caller skips it). -/
def readBodyParenGo : Nat → List Char → Nat → Int → List Char → List Char × Nat
  | 0, _, i, _, acc => (acc.reverse, i)
  | f + 1, l, i, depth, acc =>
    if i < l.length ∧ depth > 0 then
      let c := l.getD i nulChar
      if c = '(' then readBodyParenGo f l (i + 1) (depth + 1) (c :: acc)
      else if c = ')' then
        if depth - 1 = 0 then (acc.reverse, i)
        else readBodyParenGo f l (i + 1) (depth - 1) (c :: acc)
      else readBodyParenGo f l (i + 1) depth (c :: acc)
    else (acc.reverse, i)

def readBodyParen (l : List Char) (i : Nat) (depth : Int) (acc : List Char) :
    List Char × Nat :=
  readBodyParenGo (l.length + 1) l i depth acc

/-- Body reader for a brace-delimited arrow body. -/
def readBodyBraceGo : Nat → List Char → Nat → Int → List Char → List Char × Nat
  | 0, _, i, _, acc => (acc.reverse, i)
  | f + 1, l, i, depth, acc =>
    if i < l.length ∧ depth > 0 then
      let c := l.getD i nulChar
      if c = lbrace then readBodyBraceGo f l (i + 1) (depth + 1) (c :: acc)
      else if c = rbrace then
        if depth - 1 = 0 then (acc.reverse, i)
        else readBodyBraceGo f l (i + 1) (depth - 1) (c :: acc)
      else readBodyBraceGo f l (i + 1) depth (c :: acc)
    else (acc.reverse, i)

def readBodyBrace (l : List Char) (i : Nat) (depth : Int) (acc : List Char) :
    List Char × Nat :=
  readBodyBraceGo (l.length + 1) l i depth acc

/-- Body reader for a bare arrow body: collect until the closing paren
  of `.map(`. -/
def readBodySimpleGo : Nat → List Char → Nat → List Char → List Char × Nat
  | 0, _, i, acc => (acc.reverse, i)
  | f + 1, l, i, acc =>
    if i < l.length then
      if l.getD i nulChar = ')' then (acc.reverse, i)
      else readBodySimpleGo f l (i + 1) (l.getD i nulChar :: acc)
    else (acc.reverse, i)

def readBodySimple (l : List Char) (i : Nat) (acc : List Char) : List Char × Nat :=
  readBodySimpleGo (l.length + 1) l i acc

/-! ### Operator locators of the ternary and logical-AND converters -/

/-- The scan of `convertTernaryExpression`: locate the first top-level
  `?` (excluding `?.`) and its matching `:`, outside strings. -/
def findTernaryOpsGo : Nat → List Char → Nat → Int → Int → Option Char →
    Option Nat → Option (Nat × Nat)
  | 0, _, _, _, _, _, _ => none
  | f + 1, l, i, braceDepth, parenDepth, inString, qIdx =>
    if i < l.length then
      let c := l.getD i nulChar
      let prev := if i = 0 then nulChar else l.getD (i - 1) nulChar
      match inString with
      | some q =>
        findTernaryOpsGo f l (i + 1) braceDepth parenDepth
          (if c = q ∧ prev ≠ bslash then none else some q) qIdx
      | none =>
        if (c = dquote ∨ c = squote ∨ c = btick) ∧ prev ≠ bslash then
          findTernaryOpsGo f l (i + 1) braceDepth parenDepth (some c) qIdx
        else
          let bd := if c = lbrace then braceDepth + 1
            else if c = rbrace then braceDepth - 1 else braceDepth
          let pd := if c = '(' then parenDepth + 1
            else if c = ')' then parenDepth - 1 else parenDepth
          if bd = 0 ∧ pd = 0 ∧ c = '?' ∧ qIdx = none ∧ l.getD (i + 1) nulChar ≠ '.' then
            findTernaryOpsGo f l (i + 1) bd pd none (some i)
          else if bd = 0 ∧ pd = 0 ∧ c = ':' ∧ qIdx.isSome then
            qIdx.map (fun q => (q, i))
          else findTernaryOpsGo f l (i + 1) bd pd none qIdx
    else none

def findTernaryOps (l : List Char) (braceDepth parenDepth : Int)
    (inString : Option Char) (qIdx : Option Nat) : Option (Nat × Nat) :=
  findTernaryOpsGo (l.length + 1) l 0 braceDepth parenDepth inString qIdx

/-- The scan of `convertAndExpression`: locate the first top-level `&&`
  outside strings (the loop runs while `i < expr.length - 1`). -/
def findAndIdxGo : Nat → List Char → Nat → Int → Int → Option Char → Option Nat
  | 0, _, _, _, _, _ => none
  | f + 1, l, i, braceDepth, parenDepth, inString =>
    if i + 1 < l.length then
      let c := l.getD i nulChar
      let nextChar := l.getD (i + 1) nulChar
      let prev := if i = 0 then nulChar else l.getD (i - 1) nulChar
      match inString with
      | some q =>
        findAndIdxGo f l (i + 1) braceDepth parenDepth
          (if c = q ∧ prev ≠ bslash then none else some q)
      | none =>
        if (c = dquote ∨ c = squote ∨ c = btick) ∧ prev ≠ bslash then
          findAndIdxGo f l (i + 1) braceDepth parenDepth (some c)
        else
          let bd := if c = lbrace then braceDepth + 1
            else if c = rbrace then braceDepth - 1 else braceDepth
          let pd := if c = '(' then parenDepth + 1
            else if c = ')' then parenDepth - 1 else parenDepth
          if bd = 0 ∧ pd = 0 ∧ c = '&' ∧ nextChar = '&' then some i
          else findAndIdxGo f l (i + 1) bd pd none
    else none

def findAndIdx (l : List Char) (braceDepth parenDepth : Int)
    (inString : Option Char) : Option Nat :=
  findAndIdxGo (l.length + 1) l 0 braceDepth parenDepth inString

/-- `convertTernaryExpression`/`convertAndExpression` both strip one
  layer of wrapping parentheses from a branch. -/
def stripWrapParens (s : String) : String :=
  if jsStartsWith s "(" ∧ jsEndsWith s ")" then
    jsTrim (subStr s.data 1 (s.data.length - 1))
  else s

/-! ### The classifier and transformer

  The mutually recursive conversion functions of lib/renderTemplate.
  `parseJsxExpression` scans one `{...}` expression and dispatches on
  its classification (mapping, then ternary, then logical-AND, then
  plain); the converters call back into `convertJsxToTemplateLiteral`
  for nested markup, which re-enters `parseJsxExpression` on nested
  embedded expressions.  A shared fuel bounds the recursion depth; the
  top level passes fuel well beyond what any input below consumes. -/

structure PJEResult where
  content : String
  endIndex : Nat
deriving Repr, DecidableEq

mutual

def parseJsxExpression (fuel : Nat) (chars : List Char) (startIndex : Nat) :
    PJEResult :=
  match fuel with
  | 0 => ⟨"", chars.length⟩
  | f + 1 =>
    let peekAhead := (chars.drop (startIndex + 1)).take 100
    let isMapExpression := hasMapCall peekAhead
    let scan := pjeScan chars (chars.length + 1) (startIndex + 1) 1 0 0 none
      false false []
    let rawContent := String.mk scan.raw
    if isMapExpression then ⟨convertMapExpression f rawContent, scan.endIndex⟩
    else if scan.isTernary then ⟨convertTernaryExpression f rawContent, scan.endIndex⟩
    else if scan.isAnd then ⟨convertAndExpression f rawContent, scan.endIndex⟩
    else ⟨rawContent, scan.endIndex⟩

def convertMapExpression (fuel : Nat) (expr : String) : String :=
  match fuel with
  | 0 => expr
  | f + 1 =>
    let l := expr.data
    match indexOfSub l ".map(".data with
    | none => expr
    | some mapIndex =>
      let beforeMap := String.mk (l.take mapIndex)
      let i0 := mapIndex + 5
      let pr :=
        if l.getD i0 nulChar = '(' then
          let pj := readParenParams l (i0 + 1) 1 []
          (String.mk pj.1, pj.2)
        else
          let pj := readUntilArrow l i0 []
          (jsTrim (String.mk pj.1), pj.2)
      let params := pr.1
      let i2 := skipWsIdx l pr.2
      if ¬ (['=', '>'].isPrefixOf (l.drop i2)) then expr
      else
        let i3 := skipWsIdx l (i2 + 2)
        let bodyStartChar := l.getD i3 nulChar
        if bodyStartChar = '(' then
          let bj := readBodyParen l (i3 + 1) 1 []
          let afterMap := String.mk (l.drop (bj.2 + 2))
          let convertedBody := convertJsxToTemplateLiteral f (String.mk bj.1)
          beforeMap ++ ".map(function(" ++ params ++ ") \x7b return \x60" ++
            convertedBody ++ "\x60; \x7d).join(\x27\x27)" ++ afterMap
        else if bodyStartChar = lbrace then
          let bj := readBodyBrace l (i3 + 1) 1 []
          let afterMap := String.mk (l.drop (bj.2 + 2))
          let convertedBody := convertJsxToTemplateLiteral f (String.mk bj.1)
          beforeMap ++ ".map(function(" ++ params ++ ") \x7b " ++ convertedBody ++
            " \x7d).join(\x27\x27)" ++ afterMap
        else
          let bj := readBodySimple l i3 []
          let afterMap := String.mk (l.drop (bj.2 + 1))
          beforeMap ++ ".map(function(" ++ params ++ ") \x7b return " ++
            String.mk bj.1 ++ "; \x7d).join(\x27\x27)" ++ afterMap

def convertTernaryExpression (fuel : Nat) (expr : String) : String :=
  match fuel with
  | 0 => expr
  | f + 1 =>
    match findTernaryOps expr.data 0 0 none none with
    | none => expr
    | some qc =>
      let l := expr.data
      let condition := jsTrim (subStr l 0 qc.1)
      let trueValue := stripWrapParens (jsTrim (subStr l (qc.1 + 1) qc.2))
      let falseValue := stripWrapParens (jsTrim (subStr l (qc.2 + 1) l.length))
      let trueIsJsx := jsStartsWith (jsTrim trueValue) "<"
      let falseIsJsx := jsStartsWith (jsTrim falseValue) "<"
      if trueIsJsx ∨ falseIsJsx then
        let convertedTrue :=
          if trueIsJsx then convertJsxToTemplateLiteral f trueValue else trueValue
        let convertedFalse :=
          if falseIsJsx then convertJsxToTemplateLiteral f falseValue else falseValue
        condition ++ " ? \x60" ++ convertedTrue ++ "\x60 : \x60" ++ convertedFalse ++ "\x60"
      else expr

def convertAndExpression (fuel : Nat) (expr : String) : String :=
  match fuel with
  | 0 => expr
  | f + 1 =>
    match findAndIdx expr.data 0 0 none with
    | none => expr
    | some andIndex =>
      let l := expr.data
      let condition := jsTrim (subStr l 0 andIndex)
      let jsxPart := stripWrapParens (jsTrim (subStr l (andIndex + 2) l.length))
      if jsStartsWith (jsTrim jsxPart) "<" then
        condition ++ " ? \x60" ++ convertJsxToTemplateLiteral f jsxPart ++
          "\x60 : \x27\x27"
      else expr

def convertJsxToTemplateLiteral (fuel : Nat) (jsx : String) : String :=
  match fuel with
  | 0 => jsx
  | f + 1 => cjttlGo f jsx.data 0

def cjttlGo (fuel : Nat) (chars : List Char) (i : Nat) : String :=
  match fuel with
  | 0 => ""
  | f + 1 =>
    match chars.get? i with
    | none => ""
    | some c =>
      if c = lbrace then
        let r := parseJsxExpression f chars i
        "$\x7b" ++ r.content ++ "\x7d" ++ cjttlGo f chars (r.endIndex + 1)
      else if c = btick then "\x5c\x60" ++ cjttlGo f chars (i + 1)
      else if c = bslash then "\x5c\x5c" ++ cjttlGo f chars (i + 1)
      else String.mk [c] ++ cjttlGo f chars (i + 1)

end

/-! ### The whole-template expression pass and `transformJsxToHtml` -/

/-- The main loop of `parseAndConvertJsx`: a `{` begins an embedded
  expression only when `i > 0` and the previous character is not `$`. -/
def parseAndConvertJsxLoop (fuel : Nat) (chars : List Char) (i : Nat) : String :=
  match fuel with
  | 0 => ""
  | f + 1 =>
    match chars.get? i with
    | none => ""
    | some c =>
      if c = lbrace ∧ 0 < i ∧ chars.getD (i - 1) nulChar ≠ dollar then
        let r := parseJsxExpression f chars i
        "$\x7b" ++ r.content ++ "\x7d" ++ parseAndConvertJsxLoop f chars (r.endIndex + 1)
      else String.mk [c] ++ parseAndConvertJsxLoop f chars (i + 1)

def parseAndConvertJsx (jsx : String) : String :=
  parseAndConvertJsxLoop (2 * jsx.data.length + 64) jsx.data 0

/-- JS lazy-regex removal of a delimited region (`<!-- ... -->` and the
  JSX comment form): at an opening delimiter, cut to just past the
  nearest closing delimiter; if no closing delimiter follows, the
  regex has no further match and the remainder is kept verbatim. -/
def removeDelimitedGo (fuel : Nat) (l openPat closePat : List Char) : List Char :=
  match fuel with
  | 0 => l
  | f + 1 =>
    match l with
    | [] => []
    | c :: rest =>
      if openPat.isPrefixOf l then
        match indexOfSub (l.drop openPat.length) closePat with
        | some k =>
          removeDelimitedGo f (l.drop (openPat.length + k + closePat.length))
            openPat closePat
        | none => l
      else c :: removeDelimitedGo f rest openPat closePat

def removeDelimited (l openPat closePat : List Char) : List Char :=
  removeDelimitedGo (l.length + 1) l openPat closePat

/-- Global replacement of a literal pattern (`className=` → `class=`). -/
def replaceAllSubGo (fuel : Nat) (l pat repl : List Char) : List Char :=
  match fuel with
  | 0 => l
  | f + 1 =>
    match l with
    | [] => []
    | c :: rest =>
      if pat ≠ [] ∧ pat.isPrefixOf l then
        repl ++ replaceAllSubGo f (l.drop pat.length) pat repl
      else c :: replaceAllSubGo f rest pat repl

def replaceAllSub (l pat repl : List Char) : List Char :=
  replaceAllSubGo (l.length + 1) l pat repl

/-- Step 5 of `transformJsxToHtml`: re-join optional chaining split by
  whitespace (the regex `\?\s+\.` replaced by `?.`). -/
def fixOptionalChainGo (fuel : Nat) (l : List Char) : List Char :=
  match fuel with
  | 0 => l
  | f + 1 =>
    match l with
    | [] => []
    | c :: rest =>
      if c = '?' then
        let ws := rest.takeWhile Char.isWhitespace
        let rest' := rest.dropWhile Char.isWhitespace
        if ws ≠ [] ∧ rest'.head? = some '.' then
          '?' :: '.' :: fixOptionalChainGo f (rest'.drop 1)
        else c :: fixOptionalChainGo f rest
      else c :: fixOptionalChainGo f rest

def fixOptionalChain (l : List Char) : List Char :=
  fixOptionalChainGo (l.length + 1) l

/-- Lazy match of the regex tail `([^>]*?)\s*/>` after `<tag`: the
  shortest non-`>` capture followed by optional whitespace and `/>`.
  Returns the capture length and the total consumed length. -/
def matchIdxSelfClose (fuel : Nat) (rest : List Char) (j : Nat) :
    Option (Nat × Nat) :=
  match fuel with
  | 0 => none
  | f + 1 =>
    let d := rest.drop j
    let ws := d.takeWhile Char.isWhitespace
    let d' := d.dropWhile Char.isWhitespace
    if ['/', '>'].isPrefixOf d' then some (j, j + ws.length + 2)
    else
      match rest.get? j with
      | some c => if c = '>' then none else matchIdxSelfClose f rest (j + 1)
      | none => none

/-- Step 6 of `transformJsxToHtml` for one tag: rewrite `<tag .../>` to
  `<tag ...></tag>`; on a failed match the regex engine moves ahead by
  one character. -/
def selfCloseTagGo (fuel : Nat) (l : List Char) (tag : List Char) : List Char :=
  match fuel with
  | 0 => l
  | f + 1 =>
    match l with
    | [] => []
    | c :: rest =>
      if ('<' :: tag).isPrefixOf l then
        let after := l.drop (tag.length + 1)
        match matchIdxSelfClose (after.length + 1) after 0 with
        | some cap =>
          '<' :: tag ++ after.take cap.1 ++ ('>' :: '<' :: '/' :: tag) ++ ['>'] ++
            selfCloseTagGo f (after.drop cap.2) tag
        | none => c :: selfCloseTagGo f rest tag
      else c :: selfCloseTagGo f rest tag

def selfClosingTags : List String :=
  ["div", "span", "p", "h1", "h2", "h3", "h4", "h5", "h6", "li", "td", "th"]

def selfCloseAll (l : List Char) : List Char :=
  selfClosingTags.foldl (fun acc tag => selfCloseTagGo (acc.length + 1) acc tag.data) l

/-- `transformJsxToHtml` (lib/renderTemplate): remove HTML comments,
  remove JSX comments, rewrite `className=` to `class=`, convert all
  embedded expressions, re-join split optional chaining, and expand
  self-closing block tags.  (The source additionally logs progress to
  the console; logging is not modelled.) -/
def transformJsxToHtml (jsx : String) : String :=
  let r1 := removeDelimited jsx.data "<!--".data "-->".data
  let r2 := removeDelimited r1 "\x7b/*".data "*/\x7d".data
  let r3 := replaceAllSub r2 "className=".data "class=".data
  let r4 := (parseAndConvertJsx (String.mk r3)).data
  let r5 := fixOptionalChain r4
  String.mk (selfCloseAll r5)

/-! ### The evaluation language

  `evaluateTemplate` (lib/renderTemplate) builds a function from the
  compiled text with the Function constructor — `new Function(...keys,
  'return ` + template + `;')` — and calls it on the context values.
  We embed this as a parser and interpreter for the template-literal
  expression language the compiler emits: identifiers, member access,
  calls, `function` literals, string/number literals, nested template
  literals and the conditional operator.  Free names resolve in the
  supplied context; a name outside it fails evaluation the way a
  `ReferenceError` does.  (The Function constructor additionally leaves
  the JavaScript global scope reachable — `process`, `globalThis` — a
  point recorded where it decides a claim.) -/

mutual

inductive JsExpr where
  | ident (name : String)
  | strLit (s : String)
  | numLit (n : Int)
  | boolLit (b : Bool)
  | nullLit
  | member (obj : JsExpr) (field : String)
  | call (callee : JsExpr) (args : List JsExpr)
  | ternary (c t e : JsExpr)
  | funcLit (params : List String) (body : JsExpr)
  | tmpl (parts : List TmplPart)

inductive TmplPart where
  | lit (s : String)
  | hole (e : JsExpr)

end

/-- Runtime values.  Beyond the JS primitives, arrays and objects, the
  callable values are: user closures (`function` literals from compiled
  map expressions), the bound array methods `.map`/`.join` the compiled
  output invokes, and the three helper functions `createSafeContext`
  exposes (`formatDate`, `when`, `map`).  `vFormatDate` carries the
  date-formatting function the context was built with (standing for the
  JS `toLocaleDateString` call). -/
inductive JsVal where
  | vNull
  | vUndef
  | vBool (b : Bool)
  | vNum (n : Int)
  | vStr (s : String)
  | vArr (elems : List JsVal)
  | vObj (fields : List (String × JsVal))
  | vClosure (params : List String) (body : JsExpr) (env : List (String × JsVal))
  | vArrMapFn (elems : List JsVal)
  | vArrJoinFn (elems : List JsVal)
  | vFormatDate (fmt : String → String)
  | vWhen
  | vMapHelper

/-- JS truthiness. -/
def truthy : JsVal → Bool
  | .vNull => false
  | .vUndef => false
  | .vBool b => b
  | .vNum n => n ≠ 0
  | .vStr s => s ≠ ""
  | _ => true

/-- JS `String(v)`, as used by template-literal interpolation. -/
def toStr (fuel : Nat) (v : JsVal) : String :=
  match fuel, v with
  | _, .vNull => "null"
  | _, .vUndef => "undefined"
  | _, .vBool b => if b then "true" else "false"
  | _, .vNum n => toString n
  | _, .vStr s => s
  | 0, _ => ""
  | f + 1, .vArr elems =>
    joinWithSep ","
      (elems.map (fun e => match e with
        | .vNull => ""
        | .vUndef => ""
        | e => toStr f e))
  | _, .vObj _ => "[object Object]"
  | _, _ => "function"

/-! #### Parsing the emitted expression language -/

def identStartChar (c : Char) : Bool :=
  c.isAlpha || c = '_' || c = dollar

def identChar (c : Char) : Bool :=
  c.isAlphanum || c = '_' || c = dollar

/-- Identity on `(value, index)` results that pattern-matches the
  index first: whnf then yields a fully evaluated numeral, so that
  repeated uses of a parse position by callers do not re-run the
  parser (terms here are reduced by the kernel, which shares nothing).
  Semantically `forceIdx j e = some (e, j)`. -/
def forceIdx (j : Nat) (e : α) : Option (α × Nat) :=
  match j with
  | 0 => some (e, 0)
  | m + 1 => some (e, m + 1)

/-- Read an identifier at `i`. -/
def readIdent (l : List Char) (i : Nat) : Option (String × Nat) :=
  match l.get? i with
  | some c =>
    if identStartChar c then
      let rest := (l.drop (i + 1)).takeWhile identChar
      forceIdx (i + 1 + rest.length) (String.mk (c :: rest))
    else none
  | none => none

/-- Skip ASCII whitespace. -/
def skipWs (l : List Char) (i : Nat) : Nat := skipWsIdx l i

/-- Unescape inside string and template literals (`\n`, `\t`, identity
  on other escaped characters, which covers the `\x60` and `\x5c`
  escapes the compiler inserts). -/
def unescapeChar (c : Char) : Char :=
  if c = 'n' then '\n' else if c = 't' then '\t' else c

/-- Read a quoted string literal body starting just past the quote. -/
def readStrLitGo : Nat → List Char → Char → Nat → List Char → Option (String × Nat)
  | 0, _, _, _, _ => none
  | f + 1, l, q, i, acc =>
    if i < l.length then
      let c := l.getD i nulChar
      if c = q then forceIdx (i + 1) (String.mk acc.reverse)
      else if c = bslash then
        readStrLitGo f l q (i + 2) (unescapeChar (l.getD (i + 1) nulChar) :: acc)
      else readStrLitGo f l q (i + 1) (c :: acc)
    else none

def readStrLit (l : List Char) (q : Char) (i : Nat) (acc : List Char) :
    Option (String × Nat) :=
  readStrLitGo (l.length + 1) l q i acc

/-- Read a decimal integer literal. -/
def readNumLit (l : List Char) (i : Nat) : Option (Int × Nat) :=
  let digits := (l.drop i).takeWhile Char.isDigit
  if digits = [] then none
  else forceIdx (i + digits.length) ((String.mk digits).toNat! : Int)

mutual

def parseExpr (fuel : Nat) (l : List Char) (i : Nat) : Option (JsExpr × Nat) :=
  match fuel with
  | 0 => none
  | f + 1 =>
    match parsePostfix f l i with
    | none => none
    | some en =>
      let j := skipWs l en.2
      if l.getD j nulChar = '?' ∧ l.getD (j + 1) nulChar ≠ '.' then
        match parseExpr f l (j + 1) with
        | none => none
        | some tn =>
          let k := skipWs l tn.2
          if l.getD k nulChar = ':' then
            match parseExpr f l (k + 1) with
            | none => none
            | some fn => forceIdx fn.2 (JsExpr.ternary en.1 tn.1 fn.1)
          else none
      else some en
termination_by structural fuel

def parsePostfix (fuel : Nat) (l : List Char) (i : Nat) : Option (JsExpr × Nat) :=
  match fuel with
  | 0 => none
  | f + 1 =>
    match parsePrimary f l i with
    | none => none
    | some pn => parsePostfixChain f l pn.1 pn.2
termination_by structural fuel

def parsePostfixChain (fuel : Nat) (l : List Char) (e : JsExpr) (i : Nat) :
    Option (JsExpr × Nat) :=
  match fuel with
  | 0 => none
  | f + 1 =>
    let j := skipWs l i
    if l.getD j nulChar = '.' ∧ identStartChar (l.getD (j + 1) nulChar) then
      match readIdent l (j + 1) with
      | some nm => parsePostfixChain f l (.member e nm.1) nm.2
      | none => none
    else if l.getD j nulChar = '(' then
      match parseArgs f l (skipWs l (j + 1)) [] with
      | some an => parsePostfixChain f l (.call e an.1) an.2
      | none => none
    else forceIdx i e
termination_by structural fuel

def parseArgs (fuel : Nat) (l : List Char) (i : Nat) (acc : List JsExpr) :
    Option (List JsExpr × Nat) :=
  match fuel with
  | 0 => none
  | f + 1 =>
    if l.getD i nulChar = ')' then forceIdx (i + 1) acc.reverse
    else
      match parseExpr f l i with
      | none => none
      | some en =>
        let j := skipWs l en.2
        if l.getD j nulChar = ',' then parseArgs f l (skipWs l (j + 1)) (en.1 :: acc)
        else if l.getD j nulChar = ')' then forceIdx (j + 1) ((en.1 :: acc).reverse)
        else none
termination_by structural fuel

def parsePrimary (fuel : Nat) (l : List Char) (i0 : Nat) : Option (JsExpr × Nat) :=
  match fuel with
  | 0 => none
  | f + 1 =>
    let i := skipWs l i0
    match l.get? i with
    | none => none
    | some c =>
      if c = btick then
        match parseTmplParts f l (i + 1) [] [] with
        | some pn => forceIdx pn.2 (JsExpr.tmpl pn.1)
        | none => none
      else if c = squote ∨ c = dquote then
        match readStrLit l c (i + 1) [] with
        | some sn => forceIdx sn.2 (JsExpr.strLit sn.1)
        | none => none
      else if c.isDigit then
        match readNumLit l i with
        | some nn => forceIdx nn.2 (JsExpr.numLit nn.1)
        | none => none
      else if c = '(' then
        match parseExpr f l (i + 1) with
        | none => none
        | some en =>
          let j := skipWs l en.2
          if l.getD j nulChar = ')' then forceIdx (j + 1) en.1 else none
      else if "function".data.isPrefixOf (l.drop i) ∧
          ¬ identChar (l.getD (i + 8) nulChar) then
        parseFuncLit f l (i + 8)
      else
        match readIdent l i with
        | some nm =>
          if nm.1 = "null" then forceIdx nm.2 JsExpr.nullLit
          else if nm.1 = "true" then forceIdx nm.2 (JsExpr.boolLit true)
          else if nm.1 = "false" then forceIdx nm.2 (JsExpr.boolLit false)
          else forceIdx nm.2 (JsExpr.ident nm.1)
        | none => none
termination_by structural fuel

def parseFuncLit (fuel : Nat) (l : List Char) (i0 : Nat) : Option (JsExpr × Nat) :=
  match fuel with
  | 0 => none
  | f + 1 =>
    let i := skipWs l i0
    if l.getD i nulChar = '(' then
      match parseParamNames f l (skipWs l (i + 1)) [] with
      | none => none
      | some pn =>
        let j := skipWs l pn.2
        if l.getD j nulChar = lbrace then
          let k := skipWs l (j + 1)
          if "return".data.isPrefixOf (l.drop k) ∧
              ¬ identChar (l.getD (k + 6) nulChar) then
            match parseExpr f l (k + 6) with
            | none => none
            | some en =>
              let m := skipWs l en.2
              let m' := if l.getD m nulChar = ';' then skipWs l (m + 1) else m
              if l.getD m' nulChar = rbrace then
                forceIdx (m' + 1) (JsExpr.funcLit pn.1 en.1)
              else none
          else none
        else none
    else none
termination_by structural fuel

def parseParamNames (fuel : Nat) (l : List Char) (i : Nat) (acc : List String) :
    Option (List String × Nat) :=
  match fuel with
  | 0 => none
  | f + 1 =>
    if l.getD i nulChar = ')' then forceIdx (i + 1) acc.reverse
    else
      match readIdent l i with
      | none => none
      | some nm =>
        let j := skipWs l nm.2
        if l.getD j nulChar = ',' then parseParamNames f l (skipWs l (j + 1)) (nm.1 :: acc)
        else if l.getD j nulChar = ')' then forceIdx (j + 1) ((nm.1 :: acc).reverse)
        else none
termination_by structural fuel

def parseTmplParts (fuel : Nat) (l : List Char) (i : Nat) (acc : List Char)
    (parts : List TmplPart) : Option (List TmplPart × Nat) :=
  match fuel with
  | 0 => none
  | f + 1 =>
    match l.get? i with
    | none => none
    | some c =>
      if c = btick then
        forceIdx (i + 1) ((TmplPart.lit (String.mk acc.reverse) :: parts).reverse)
      else if c = bslash then
        parseTmplParts f l (i + 2) (unescapeChar (l.getD (i + 1) nulChar) :: acc) parts
      else if c = dollar ∧ l.getD (i + 1) nulChar = lbrace then
        match parseExpr f l (i + 2) with
        | none => none
        | some en =>
          let j := skipWs l en.2
          if l.getD j nulChar = rbrace then
            parseTmplParts f l (j + 1) []
              (TmplPart.hole en.1 :: TmplPart.lit (String.mk acc.reverse) :: parts)
          else none
      else parseTmplParts f l (i + 1) (c :: acc) parts
termination_by structural fuel
end

/-! #### Evaluating the parsed expressions -/

/-- Bind closure parameters to call arguments, JS-style: missing
  arguments become `undefined`, extra arguments are dropped. -/
def bindParams (params : List String) (args : List JsVal) : List (String × JsVal) :=
  match params, args with
  | [], _ => []
  | p :: ps, [] => (p, JsVal.vUndef) :: bindParams ps []
  | p :: ps, a :: as' => (p, a) :: bindParams ps as'

/-- `Array.prototype.join` stringifies `null`/`undefined` elements to
  the empty string. -/
def joinElemStr (fuel : Nat) : JsVal → String
  | .vNull => ""
  | .vUndef => ""
  | v => toStr fuel v

mutual

def evalExpr (fuel : Nat) (env : List (String × JsVal)) :
    JsExpr → Except String JsVal
  | e =>
    match fuel with
    | 0 => .error "out of fuel"
    | f + 1 =>
      match e with
      | .ident n =>
        match env.lookup n with
        | some v => .ok v
        | none => .error (n ++ " is not defined")
      | .strLit s => .ok (.vStr s)
      | .numLit n => .ok (.vNum n)
      | .boolLit b => .ok (.vBool b)
      | .nullLit => .ok .vNull
      | .member o field =>
        match evalExpr f env o with
        | .error msg => .error msg
        | .ok ov =>
          match ov with
          | .vObj fields => .ok ((fields.lookup field).getD .vUndef)
          | .vArr es =>
            if field = "map" then .ok (.vArrMapFn es)
            else if field = "join" then .ok (.vArrJoinFn es)
            else if field = "length" then .ok (.vNum es.length)
            else .ok .vUndef
          | .vStr s =>
            if field = "length" then .ok (.vNum s.length) else .ok .vUndef
          | .vNull => .error ("Cannot read properties of null (reading " ++ field ++ ")")
          | .vUndef => .error ("Cannot read properties of undefined (reading " ++ field ++ ")")
          | _ => .ok .vUndef
      | .call callee args =>
        match evalExpr f env callee with
        | .error msg => .error msg
        | .ok fv =>
          match evalArgs f env args with
          | .error msg => .error msg
          | .ok avs => applyFn f fv avs
      | .ternary c t e' =>
        match evalExpr f env c with
        | .error msg => .error msg
        | .ok cv => if truthy cv then evalExpr f env t else evalExpr f env e'
      | .funcLit ps b => .ok (.vClosure ps b env)
      | .tmpl parts => (evalParts f env parts).map JsVal.vStr

def evalArgs (fuel : Nat) (env : List (String × JsVal)) :
    List JsExpr → Except String (List JsVal)
  | args =>
    match fuel with
    | 0 => .error "out of fuel"
    | f + 1 =>
      match args with
      | [] => .ok []
      | a :: rest =>
        match evalExpr f env a with
        | .error msg => .error msg
        | .ok v =>
          match evalArgs f env rest with
          | .error msg => .error msg
          | .ok vs => .ok (v :: vs)

def applyFn (fuel : Nat) (fv : JsVal) (args : List JsVal) : Except String JsVal :=
  match fuel with
  | 0 => .error "out of fuel"
  | f + 1 =>
    match fv with
    | .vClosure params body cenv => evalExpr f (bindParams params args ++ cenv) body
    | .vArrMapFn es =>
      match args.head? with
      | some cb => (evalMapElems f cb es 0).map JsVal.vArr
      | none => .error "undefined is not a function"
    | .vArrJoinFn es =>
      let sep := match args.head? with
        | some s => toStr (f + 1) s
        | none => ","
      .ok (.vStr (joinWithSep sep (es.map (joinElemStr (f + 1)))))
    | .vFormatDate fmt =>
      let d := args.headD .vUndef
      if ¬ truthy d then .ok (.vStr "")
      else .ok (.vStr (fmt (toStr (f + 1) d)))
    | .vWhen =>
      let c := args.headD .vUndef
      let t := args.getD 1 .vUndef
      let e := args.getD 2 (.vStr "")
      .ok (if truthy c then t else e)
    | .vMapHelper =>
      match args.headD .vUndef with
      | .vArr es =>
        match args.getD 1 .vUndef with
        | cb =>
          match evalMapElems f cb es 0 with
          | .error msg => .error msg
          | .ok vs => .ok (.vStr (joinWithSep "" (vs.map (joinElemStr (f + 1)))))
      | _ => .ok (.vStr "")
    | _ => .error "is not a function"

def evalMapElems (fuel : Nat) (cb : JsVal) (es : List JsVal) (idx : Nat) :
    Except String (List JsVal) :=
  match fuel with
  | 0 => .error "out of fuel"
  | f + 1 =>
    match es with
    | [] => .ok []
    | e :: rest =>
      match applyFn f cb [e, .vNum idx] with
      | .error msg => .error msg
      | .ok v =>
        match evalMapElems f cb rest (idx + 1) with
        | .error msg => .error msg
        | .ok vs => .ok (v :: vs)

def evalParts (fuel : Nat) (env : List (String × JsVal)) :
    List TmplPart → Except String String
  | parts =>
    match fuel with
    | 0 => .error "out of fuel"
    | f + 1 =>
      match parts with
      | [] => .ok ""
      | .lit s :: rest =>
        match evalParts f env rest with
        | .error msg => .error msg
        | .ok t => .ok (s ++ t)
      | .hole e :: rest =>
        match evalExpr f env e with
        | .error msg => .error msg
        | .ok v =>
          match evalParts f env rest with
          | .error msg => .error msg
          | .ok t => .ok (toStr (f + 1) v ++ t)

end

/-! ### `evaluateTemplate` and its side effect -/

/-- The observable side effects of the renderer.  `evaluateTemplate`
  writes the compiled template to a fixed path before constructing the
  evaluation function (`fs.writeFileSync(...)`, the debug dump). -/
inductive Effect where
  | writeFileSync (path content : String)
deriving Repr, DecidableEq

/-- The fixed path of the debug dump in `evaluateTemplate`. -/
def debugDumpPath : String := "c:/Users/ardit/Desktop/invoice/transformed-debug.txt"

deriving instance DecidableEq for Except

structure EvalOutcome where
  result : Except String String
  effects : List Effect
deriving Repr, DecidableEq

/-- `evaluateTemplate` (lib/renderTemplate): write the debug dump, then
  evaluate `'return ` + template + `;'` against exactly the named
  context values.  A template that does not lex as one template literal
  fails the way the Function constructor raises a SyntaxError. -/
def evaluateTemplate (template : String) (context : List (String × JsVal)) :
    EvalOutcome :=
  let n := template.data.length
  let lexed := parseTmplParts (4 * n + 64) (template.data ++ [btick]) 0 [] []
  let result : Except String String :=
    match lexed with
    | some pn =>
      if pn.2 = n + 1 then evalParts (4 * n + 64) context pn.1
      else .error "SyntaxError: Invalid or unexpected token"
    | none => .error "SyntaxError: Invalid or unexpected token"
  { result := result, effects := [Effect.writeFileSync debugDumpPath template] }

/-! ### The data model consumed by the renderer

  Value-object mirrors of the entities the renderer reads (columns of
  the `invoices`/`invoice_items`/`companies`/`currencies` tables plus
  the narrowing in `TemplateContext`), restricted to the renderer- and
  route-relevant columns.  Decimal amounts are modelled as integers;
  no claim below depends on fractional values. -/

structure InvoiceItemRec where
  name : String
  quantity : Int
  unit_price : Int
deriving Repr, DecidableEq

structure InvoiceRec where
  invoice_number : String
  issue_date : Option String
  due_date : Option String
  customer_name : String
  customer_street : Option String
  customer_city : Option String
  customer_country : Option String
  notes : Option String
  terms : Option String
  subtotal_amount : Option Int
  discount_amount : Option Int
  discount_total_amount : Option Int
  tax_amount : Option Int
  tax_total_amount : Option Int
  shipping_amount : Option Int
  shipping_total_amount : Option Int
  total_amount : Option Int
  items : List InvoiceItemRec
deriving Repr, DecidableEq

structure CompanyRec where
  name : String
  email : Option String
  phone : Option String
  street : Option String
  city : Option String
  zip_code : Option String
  country : Option String
  logo_url : Option String
deriving Repr, DecidableEq

structure CurrencyRec where
  code : String
  symbol : String
deriving Repr, DecidableEq

/-- The `TemplateContext` interface of lib/renderTemplate. -/
structure TemplateContext where
  invoice : InvoiceRec
  company : Option CompanyRec
  currency : Option CurrencyRec

def optStrVal : Option String → JsVal
  | some s => .vStr s
  | none => .vNull

def optNumVal : Option Int → JsVal
  | some n => .vNum n
  | none => .vNull

/-- The invoice record as the object value the template sees. -/
def invoiceVal (inv : InvoiceRec) : JsVal :=
  .vObj [
    ("invoice_number", .vStr inv.invoice_number),
    ("issue_date", optStrVal inv.issue_date),
    ("due_date", optStrVal inv.due_date),
    ("customer_name", .vStr inv.customer_name),
    ("customer_street", optStrVal inv.customer_street),
    ("customer_city", optStrVal inv.customer_city),
    ("customer_country", optStrVal inv.customer_country),
    ("notes", optStrVal inv.notes),
    ("terms", optStrVal inv.terms),
    ("subtotal_amount", optNumVal inv.subtotal_amount),
    ("discount_amount", optNumVal inv.discount_amount),
    ("discount_total_amount", optNumVal inv.discount_total_amount),
    ("tax_amount", optNumVal inv.tax_amount),
    ("tax_total_amount", optNumVal inv.tax_total_amount),
    ("shipping_amount", optNumVal inv.shipping_amount),
    ("shipping_total_amount", optNumVal inv.shipping_total_amount),
    ("total_amount", optNumVal inv.total_amount),
    ("items", .vArr (inv.items.map (fun it =>
      .vObj [("name", .vStr it.name), ("quantity", .vNum it.quantity),
             ("unit_price", .vNum it.unit_price)])))]

def companyVal : Option CompanyRec → JsVal
  | none => .vNull
  | some c => .vObj [
      ("name", .vStr c.name), ("email", optStrVal c.email),
      ("phone", optStrVal c.phone), ("street", optStrVal c.street),
      ("city", optStrVal c.city), ("zip_code", optStrVal c.zip_code),
      ("country", optStrVal c.country), ("logo_url", optStrVal c.logo_url)]

def currencyVal : Option CurrencyRec → JsVal
  | none => .vNull
  | some c => .vObj [("code", .vStr c.code), ("symbol", .vStr c.symbol)]

/-- JS `a || b`. -/
def jsOr (a b : JsVal) : JsVal := if truthy a then a else b

/-- The `formatDate` helper of `createSafeContext`: empty string for a
  null/empty date, otherwise the formatted date.  `dateFmt` stands for
  the JS `new Date(date).toLocaleDateString('en-US', ...)` call, which
  the claims below never depend on. -/
def formatDateStr (dateFmt : String → String) : Option String → String
  | none => ""
  | some d => if d = "" then "" else dateFmt d

/-- `createSafeContext` (lib/renderTemplate): the exact named-value set
  the compiled template may reference. -/
def createSafeContext (dateFmt : String → String) (context : TemplateContext) :
    List (String × JsVal) :=
  let invoice := context.invoice
  let subtotal := jsOr (optNumVal invoice.subtotal_amount) (.vNum 0)
  let discountAmount := jsOr (optNumVal invoice.discount_total_amount) (.vNum 0)
  let taxAmount := jsOr (optNumVal invoice.tax_total_amount) (.vNum 0)
  let shippingAmount := jsOr (optNumVal invoice.shipping_total_amount) (.vNum 0)
  let total := jsOr (optNumVal invoice.total_amount) (.vNum 0)
  [("invoice", invoiceVal invoice),
   ("company", companyVal context.company),
   ("currency", currencyVal context.currency),
   ("subtotal", subtotal),
   ("discountAmount", discountAmount),
   ("taxAmount", taxAmount),
   ("shippingAmount", shippingAmount),
   ("total", total),
   ("formattedIssueDate", .vStr (formatDateStr dateFmt invoice.issue_date)),
   ("formattedDueDate", .vStr (formatDateStr dateFmt invoice.due_date)),
   ("formatDate", .vFormatDate dateFmt),
   ("when", .vWhen),
   ("map", .vMapHelper)]

/-- Steps 1–2 of `renderInvoiceToHtml` (lib/renderTemplate lines 71–72):
  a template containing `${` but no `className=` is already in template
  literal form and is passed to evaluation verbatim; otherwise it is
  transformed from JSX. -/
def compileForEvaluation (tsxTemplate : String) : String :=
  let isTemplateLiteral :=
    containsSub tsxTemplate "$\x7b" && ! containsSub tsxTemplate "className="
  if isTemplateLiteral then tsxTemplate else transformJsxToHtml tsxTemplate

/-- `renderInvoiceToHtml` (lib/renderTemplate): compile, build the safe
  context, evaluate; any evaluation failure is re-surfaced with the
  `Template rendering failed:` prefix. -/
def renderInvoiceToHtml (dateFmt : String → String) (tsxTemplate : String)
    (context : TemplateContext) : EvalOutcome :=
  let htmlTemplate := compileForEvaluation tsxTemplate
  let out := evaluateTemplate htmlTemplate (createSafeContext dateFmt context)
  { result := out.result.mapError (fun msg => "Template rendering failed: " ++ msg),
    effects := out.effects }

/-! ### Keyset pagination (invoicesApi.getAllWithCursor)

  `getAllWithCursor` paginates the invoice list by appending filter
  parameters to a PostgREST query ordered by
  `created_at.desc,id.desc`. -/

/-- Lexicographic (code-point) comparison of character lists. -/
def listStrLt : List Char → List Char → Bool
  | [], [] => false
  | [], _ :: _ => true
  | _ :: _, [] => false
  | a :: as', b :: bs =>
    if a.val < b.val then true
    else if b.val < a.val then false
    else listStrLt as' bs

/-- Lexicographic string comparison: the order in which the data store
  compares the ISO `created_at` timestamps and the ids. -/
def strLt (a b : String) : Bool := listStrLt a.data b.data

/-- A keyset cursor: the last row's `(created_at, id)` sort values. -/
structure PageCursor where
  createdAt : String
  id : String
deriving Repr, DecidableEq

/-- The row fields the cursor condition can observe.  ISO timestamps
  order lexicographically, so string comparison is the timestamp
  order. -/
structure InvoiceRow where
  created_at : String
  id : String
deriving Repr, DecidableEq

/-- The query parameters `getAllWithCursor` appends for a cursor
  (features/invoices/api lines 138–143): only
  `created_at=lt.<cursor.createdAt>`. -/
def cursorQueryParams (cursor : Option PageCursor) : List (String × String) :=
  match cursor with
  | none => []
  | some c => [("created_at", "lt." ++ c.createdAt)]

/-- The row filter those parameters denote under the data store's
  documented comparison operators (`lt` keeps rows whose column is
  strictly below the bound). -/
def rowMatchesCursorFilter (cursor : Option PageCursor) (row : InvoiceRow) : Bool :=
  (cursorQueryParams cursor).all (fun p =>
    if p.1 = "created_at" ∧ "lt.".data.isPrefixOf p.2.data then
      strLt row.created_at (String.mk (p.2.data.drop 3))
    else true)

/-- The rows a "next page" request keeps. -/
def cursorPageRows (cursor : Option PageCursor) (rows : List InvoiceRow) :
    List InvoiceRow :=
  rows.filter (rowMatchesCursorFilter cursor)

/-- The "next page" predicate as the spec states it — rows strictly
  less than the cursor pair under `(createdAt DESC, id DESC)`:
  `created_at < cursor.createdAt`, or `created_at = cursor.createdAt`
  and `id < cursor.id`.  (Stated from the spec's words, to compare
  against `rowMatchesCursorFilter`.) -/
def specKeysetStrictlyLess (cursor : PageCursor) (row : InvoiceRow) : Bool :=
  strLt row.created_at cursor.createdAt ||
    (row.created_at == cursor.createdAt && strLt row.id cursor.id)

/-! ### The PDF export route (app/invoice/[id]/download GET) -/

/-- The record of the `templates` table read by the route. -/
structure TemplateRec where
  id : String
  name : String
  styling : Option String
deriving Repr, DecidableEq

/-- `customInvoiceHtml` from the route: wrap the rendered body in the
  fixed document shell. -/
def customInvoiceHtml (bodyContent : String) : String :=
  "\n    <!DOCTYPE html>\n    <html>\n    <head>\n      <meta charset=\"UTF-8\">\n      <meta name=\"viewport\" content=\"width=device-width, initial-scale=1.0\">\n      <link rel=\"preconnect\" href=\"https://fonts.googleapis.com\">\n      <link rel=\"preconnect\" href=\"https://fonts.gstatic.com\" crossorigin>\n      <link href=\"https://fonts.googleapis.com/css2?family=Inter:wght@100;200;300;400;500;600;700;800;900&display=swap\" rel=\"stylesheet\">\n      <script src=\"https://cdn.tailwindcss.com\"></script>\n      <style>\n        * \x7b\n          padding: 0;\n          margin: 0;\n          box-sizing: border-box;\n        \x7d\n        body \x7b\n          font-family: Inter, sans-serif;\n        \x7d\n      </style>\n    </head>\n    <body class=\"bg-white\">\n      " ++ bodyContent ++ "\n    </body>\n    </html>\n  "

/-- The HTML-selection logic of the route's GET handler (lines
  708–730): when a template with non-empty styling is assigned, try the
  custom renderer and wrap the result; on any rendering error, log the
  fallback (`console.error('Error rendering custom template, using
  default:')`, here the Boolean) and use the built-in default template
  instead.  `invoiceHtmlDefault` stands for the route's `InvoiceHtml`
  function (the default template, whose markup no claim inspects). -/
def exportChooseHtml (invoiceHtmlDefault : InvoiceRec → String)
    (dateFmt : String → String) (invoice : InvoiceRec)
    (company : Option CompanyRec) (currency : Option CurrencyRec)
    (template : Option TemplateRec) : String × Bool :=
  match template with
  | some t =>
    match t.styling with
    | some s =>
      if s ≠ "" then
        match (renderInvoiceToHtml dateFmt s ⟨invoice, company, currency⟩).result with
        | .ok h => (customInvoiceHtml h, false)
        | .error _ => (invoiceHtmlDefault invoice, true)
      else (invoiceHtmlDefault invoice, false)
    | none => (invoiceHtmlDefault invoice, false)
  | none => (invoiceHtmlDefault invoice, false)

/-- Outcome of a GET export request: a 404 when the invoice id does not
  resolve, otherwise a 200 streaming the PDF generated from the chosen
  HTML (the external `generatePdf` engine is taken as succeeding;
  `logged` records whether the template fallback was logged). -/
inductive RouteResult where
  | notFound
  | pdf (html : String) (logged : Bool)
deriving DecidableEq

/-- The GET handler's control flow up to PDF generation. -/
def exportRouteGET (invoiceHtmlDefault : InvoiceRec → String)
    (dateFmt : String → String)
    (lookup : Option (InvoiceRec × Option CompanyRec × Option CurrencyRec))
    (template : Option TemplateRec) : RouteResult :=
  match lookup with
  | none => .notFound
  | some icc =>
    let ch := exportChooseHtml invoiceHtmlDefault dateFmt icc.1 icc.2.1 icc.2.2 template
    .pdf ch.1 ch.2

/-! ### Concrete fixtures used by the theorems -/

/-- A minimal invoice with null dates, null notes and no items. -/
def sampleInvoice : InvoiceRec :=
  { invoice_number := "INV-001", issue_date := none, due_date := none,
    customer_name := "Jo Doe", customer_street := none, customer_city := none,
    customer_country := none, notes := none, terms := none,
    subtotal_amount := none, discount_amount := none,
    discount_total_amount := none, tax_amount := none, tax_total_amount := none,
    shipping_amount := none, shipping_total_amount := none,
    total_amount := some 1500, items := [] }

def sampleContext : TemplateContext :=
  { invoice := sampleInvoice, company := none,
    currency := some { code := "USD", symbol := "$" } }

/-- The same context with `invoice.notes = "Thanks"`. -/
def sampleContextNotes : TemplateContext :=
  { invoice := { sampleInvoice with notes := some "Thanks" }, company := none,
    currency := none }

/-- A stored template whose styling references a name outside the safe
  context, so evaluation fails. -/
def badStylingTemplate : TemplateRec :=
  { id := "t1", name := "Broken", styling := some "$\x7bnosuchname\x7d" }

/-- A tied cursor/row pair: equal `created_at`, row id below the
  cursor id. -/
def tieCursor : PageCursor :=
  { createdAt := "2024-06-01T10:00:00+00:00", id := "b0000000" }

def tieRow : InvoiceRow :=
  { created_at := "2024-06-01T10:00:00+00:00", id := "a0000000" }

/-! ### Unfolding lemmas for the top-level expression pass -/

/-- One literal step of the `parseAndConvertJsx` loop: a character that
  does not open an embedded expression is copied. -/
theorem parseAndConvertJsxLoop_lit (f : Nat) (chars : List Char) (i : Nat) (c : Char)
    (hc : chars[i]? = some c)
    (hcond : ¬ (c = lbrace ∧ 0 < i ∧ (chars[i - 1]?).getD nulChar ≠ dollar)) :
    parseAndConvertJsxLoop (f + 1) chars i =
      String.mk [c] ++ parseAndConvertJsxLoop f chars (i + 1) := by
  simp only [parseAndConvertJsxLoop, List.get?_eq_getElem?, List.getD, hc]
  rw [if_neg hcond]

/-- One expression step of the `parseAndConvertJsx` loop: a `\x7b` at a
  positive index whose predecessor is not `$` opens an embedded
  expression. -/
theorem parseAndConvertJsxLoop_expr (f : Nat) (chars : List Char) (i : Nat)
    (hc : chars[i]? = some lbrace) (hi : 0 < i)
    (hp : (chars[i - 1]?).getD nulChar ≠ dollar) :
    parseAndConvertJsxLoop (f + 1) chars i =
      "$\x7b" ++ (parseJsxExpression f chars i).content ++ "\x7d" ++
        parseAndConvertJsxLoop f chars ((parseJsxExpression f chars i).endIndex + 1) := by
  simp only [parseAndConvertJsxLoop, List.get?_eq_getElem?, List.getD, hc]
  rw [if_pos ⟨trivial, hi, hp⟩]

/-! ### Claim theorems -/

/-- C10: the top-level expression pass never treats a `\x7b` at
  position 0 as an embedded-expression start: for every template whose
  first character is `\x7b`, that character is emitted literally and
  scanning resumes at index 1 (first conjunct); in particular the
  expression `\x7binvoice.notes\x7d` at position 0 is never rewritten
  to interpolation form (second conjunct), while the identical
  expression preceded by any character other than `$` is rewritten
  (third conjunct). -/
theorem parseAndConvertJsx_position_zero_guard :
    (∀ s : String, s.data.head? = some lbrace →
      parseAndConvertJsx s =
        String.mk [lbrace] ++ parseAndConvertJsxLoop (2 * s.data.length + 63) s.data 1) ∧
    parseAndConvertJsx "\x7binvoice.notes\x7d" = "\x7binvoice.notes\x7d" ∧
    (∀ c : Char, c ≠ dollar →
      parseAndConvertJsx (String.mk (c :: "\x7binvoice.notes\x7d".data)) =
        String.mk [c] ++ "$\x7binvoice.notes\x7d") := by
  refine ⟨?_, by decide, ?_⟩
  · intro s h
    obtain ⟨data⟩ := s
    match data, h with
    | a :: cs, h =>
      have ha : a = lbrace := by simpa using h
      subst ha
      exact parseAndConvertJsxLoop_lit (2 * cs.length + 65) (lbrace :: cs) 0 lbrace
        (by simp) (by simp)
  · intro c hc
    have h1 := parseAndConvertJsxLoop_lit 95 (c :: "\x7binvoice.notes\x7d".data) 0 c
      (by simp) (by simp)
    have h2 := parseAndConvertJsxLoop_expr 94 (c :: "\x7binvoice.notes\x7d".data) 1
      (by simp; decide) (by omega) (by simpa using hc)
    calc parseAndConvertJsx (String.mk (c :: "\x7binvoice.notes\x7d".data))
        = String.mk [c] ++ parseAndConvertJsxLoop 95 (c :: "\x7binvoice.notes\x7d".data) 1 := h1
      _ = String.mk [c] ++ "$\x7binvoice.notes\x7d" := by rw [h2]; rfl

/-- Witness for C10 at concrete inputs. -/
theorem parseAndConvertJsx_position_zero_guard_witness :
    parseAndConvertJsx "\x7bx\x7d" =
      String.mk [lbrace] ++ parseAndConvertJsxLoop (2 * "\x7bx\x7d".data.length + 63)
        "\x7bx\x7d".data 1 ∧
    parseAndConvertJsx (String.mk ('x' :: "\x7binvoice.notes\x7d".data)) =
      String.mk ['x'] ++ "$\x7binvoice.notes\x7d" :=
  ⟨parseAndConvertJsx_position_zero_guard.1 "\x7bx\x7d" (by decide),
   parseAndConvertJsx_position_zero_guard.2.2 'x' (by decide)⟩

/-- C9: a template already in plain-interpolation form — it contains
  the interpolation marker `$\x7b` and no `className=` attribute — is
  passed to evaluation verbatim: compilation is the identity on it. -/
theorem compileForEvaluation_passthrough (t : String)
    (h1 : containsSub t "$\x7b" = true)
    (h2 : containsSub t "className=" = false) :
    compileForEvaluation t = t := by
  simp [compileForEvaluation, h1, h2]

/-- Witness for C9. -/
theorem compileForEvaluation_passthrough_witness :
    containsSub "<p>$\x7btotal\x7d</p>" "$\x7b" = true ∧
    containsSub "<p>$\x7btotal\x7d</p>" "className=" = false ∧
    compileForEvaluation "<p>$\x7btotal\x7d</p>" = "<p>$\x7btotal\x7d</p>" :=
  ⟨by decide, by decide,
   compileForEvaluation_passthrough "<p>$\x7btotal\x7d</p>" (by decide) (by decide)⟩

/-- C1: the malicious-input probes do not raise a TemplateRenderError.
  An expression opening at template position 0 is never compiled (the
  `i > 0` guard shown in `parseAndConvertJsx_position_zero_guard`), so
  the templates `\x7bprocess.exit(1)\x7d` and `\x7bglobalThis\x7d`
  reach evaluation as literal text and render verbatim, successfully.
  (For an expression at any other position the situation is no better:
  the source evaluates through the Function constructor, whose code
  runs in the JavaScript global scope where `process` and `globalThis`
  resolve — contradicting the module's own SECURITY NOTES — so the
  expression would execute rather than fail as an unresolved name.) -/
theorem renderInvoiceToHtml_probes_render_literally :
    (renderInvoiceToHtml id "\x7bglobalThis\x7d" sampleContext).result =
      .ok "\x7bglobalThis\x7d" ∧
    (renderInvoiceToHtml id "\x7bprocess.exit(1)\x7d" sampleContext).result =
      .ok "\x7bprocess.exit(1)\x7d" := by
  exact ⟨by decide, by decide⟩

/-- C2 counterexample: compiling the spec's unbalanced-brace example
  raises nothing — the transform is total and silently produces output
  (the expression wrapped as far as it was scanned); no compilation
  error exists anywhere in the pipeline. -/
theorem transformJsxToHtml_unbalanced_produces_output :
    transformJsxToHtml "\x7binvoice.items.map(i => <div>\x7bi.name\x7d</div>" =
      "\x7binvoice.items.map(i => <div>$\x7bi.name\x7d</div>" := by
  decide

/-- C2 amended: on an unbalanced `\x7b` the scan terminates at the
  end-of-input position (no hang), compilation silently wraps the
  scanned text, and the malformed template surfaces only at evaluation,
  as a rendering error. -/
theorem parseJsxExpression_unbalanced_stops_at_end :
    (parseJsxExpression 200 "x\x7binvoice.items.map(i => <div>\x7bi.name\x7d</div>".data 1).endIndex =
      "x\x7binvoice.items.map(i => <div>\x7bi.name\x7d</div>".data.length ∧
    (renderInvoiceToHtml id "\x7binvoice.items.map(i => <div>\x7bi.name\x7d</div>"
        sampleContext).result =
      .error "Template rendering failed: i is not defined" := by
  exact ⟨by decide, by decide⟩

/-- C3: the cursor condition `getAllWithCursor` sends to the data store
  is only `created_at=lt.cursor.createdAt` — despite its own comment
  ("If there are ties, we also filter by id") no id condition is
  appended — so a row tied on `created_at` with a smaller id, which the
  `(createdAt DESC, id DESC)` keyset order requires on the next page,
  is dropped. -/
theorem getAllWithCursor_filter_drops_tied_rows :
    specKeysetStrictlyLess tieCursor tieRow = true ∧
    rowMatchesCursorFilter (some tieCursor) tieRow = false ∧
    cursorPageRows (some tieCursor) [tieRow] = [] ∧
    cursorQueryParams (some tieCursor) =
      [("created_at", "lt.2024-06-01T10:00:00+00:00")] := by
  exact ⟨by decide, by decide, by decide, by decide⟩

/-- C4 counterexample: a template interpolating `invoice.due_date`
  directly renders the string `null`, not the empty string, when the
  date is null (JS template literals stringify `null` to `"null"`). -/
theorem renderInvoiceToHtml_null_due_date_renders_null_text :
    (renderInvoiceToHtml id "<p>\x7binvoice.due_date\x7d</p>" sampleContext).result =
      .ok "<p>null</p>" ∧
    (Except.ok "<p>null</p>" : Except String String) ≠ .ok "<p></p>" := by
  exact ⟨by decide, by decide⟩

/-- C4 amended: with a null due date, the empty-string substitution
  holds exactly on the date-formatter paths the safe context provides —
  `formatDate(invoice.due_date)` and the derived `formattedDueDate` —
  and those paths do not throw; a raw `invoice.due_date` interpolation
  also does not throw but substitutes the string `null`; and rendering
  is not in general throw-free for templates referencing
  `invoice.due_date`: dereferencing the null value, as in
  `invoice.due_date.length`, fails with a rendering error.  The
  statement holds for every date-formatting function. -/
theorem renderInvoiceToHtml_null_due_date_formats_empty
    (dateFmt : String → String) :
    (renderInvoiceToHtml dateFmt "<p>\x7bformatDate(invoice.due_date)\x7d</p>"
        sampleContext).result = .ok "<p></p>" ∧
    (renderInvoiceToHtml dateFmt "<p>\x7bformattedDueDate\x7d</p>"
        sampleContext).result = .ok "<p></p>" ∧
    (renderInvoiceToHtml dateFmt "<p>\x7binvoice.due_date\x7d</p>"
        sampleContext).result = .ok "<p>null</p>" ∧
    (renderInvoiceToHtml dateFmt "<p>\x7binvoice.due_date.length\x7d</p>"
        sampleContext).result =
      .error "Template rendering failed: Cannot read properties of null (reading length)" := by
  exact ⟨rfl, rfl, rfl, rfl⟩

/-- C5 counterexample: evaluation is not free of blocking I/O — every
  render performs the evaluator's debug file write. -/
theorem renderInvoiceToHtml_effects_nonempty :
    (renderInvoiceToHtml id "<p>hi</p>" sampleContext).effects ≠ [] := by
  decide

/-- C5 amended: per call the renderer performs exactly one side effect,
  the debug dump of the compiled template to a fixed path inside
  `evaluateTemplate`; apart from that effect the outcome is a pure
  function of the template text and context (the compiler and
  evaluator keep no state between calls). -/
theorem renderInvoiceToHtml_effects_exactly_debug_dump
    (dateFmt : String → String) (t : String) (ctx : TemplateContext) :
    (renderInvoiceToHtml dateFmt t ctx).effects =
      [Effect.writeFileSync debugDumpPath (compileForEvaluation t)] := rfl

/-- C6: when an assigned custom template fails during rendering, the
  export GET recovers locally: it logs the fallback and generates the
  PDF from the built-in default template, so the export still returns
  a 200 with a PDF — a bad custom template never fails the whole
  export.  (The statement holds for every default template, every
  date formatter and every invoice bundle.) -/
theorem exportRouteGET_falls_back_on_render_error
    (invoiceHtmlDefault : InvoiceRec → String) (dateFmt : String → String)
    (invoice : InvoiceRec) (company : Option CompanyRec)
    (currency : Option CurrencyRec) (t : TemplateRec) (s e : String)
    (hs : t.styling = some s) (hne : s ≠ "")
    (herr : (renderInvoiceToHtml dateFmt s ⟨invoice, company, currency⟩).result =
      .error e) :
    exportRouteGET invoiceHtmlDefault dateFmt (some (invoice, company, currency))
      (some t) = .pdf (invoiceHtmlDefault invoice) true := by
  simp [exportRouteGET, exportChooseHtml, hs, hne, herr]

/-- Witness for C6: a concrete broken template takes the fallback. -/
theorem exportRouteGET_falls_back_on_render_error_witness :
    exportRouteGET (fun _ => "DEFAULT") id
      (some (sampleInvoice, none, none)) (some badStylingTemplate) =
      .pdf "DEFAULT" true :=
  exportRouteGET_falls_back_on_render_error (fun _ => "DEFAULT") id
    sampleInvoice none none badStylingTemplate "$\x7bnosuchname\x7d"
    "Template rendering failed: nosuchname is not defined" rfl (by decide) (by decide)

/-- C7 counterexample: the compiled output of a mapping expression does
  not call the safe context's mapping helper (which would appear as an
  application `map(arr, ...)`); it invokes the receiver's own `.map`
  method directly. -/
theorem convertMapExpression_not_helper_call :
    transformJsxToHtml "<div>\x7barr.map(x => (<div>\x7bx.name\x7d</div>))\x7d</div>" =
      "<div>$\x7barr.map(function(x) \x7b return \x60<div>$\x7bx.name\x7d</div>\x60; \x7d).join(\x27\x27)\x7d</div>" ∧
    containsSub
      (transformJsxToHtml "<div>\x7barr.map(x => (<div>\x7bx.name\x7d</div>))\x7d</div>")
      "map(arr" = false := by
  exact ⟨by decide, by decide⟩

/-- C7 amended: the compiled output of a mapping expression calls the
  receiver's own `.map` with the rewritten callback and appends
  `.join(\x27\x27)`, joining the mapped strings into one string; and
  rendering such an expression against an empty array yields the empty
  string (the surrounding markup only). -/
theorem convertMapExpression_direct_map_join :
    convertMapExpression 200 "arr.map(x => (<div>\x7bx.name\x7d</div>))" =
      "arr.map(function(x) \x7b return \x60<div>$\x7bx.name\x7d</div>\x60; \x7d).join(\x27\x27)" ∧
    (renderInvoiceToHtml id
        "<div>\x7binvoice.items.map(x => (<p>\x7bx.name\x7d</p>))\x7d</div>"
        sampleContext).result = .ok "<div></div>" := by
  exact ⟨by decide, by decide⟩

/-- C8 counterexample: the spec's logical-AND scenario template starts
  with `\x7b`, so the expression at position 0 is never converted (C10)
  and rendering yields the braces and condition as literal text — with
  `invoice.notes = null` the output is not the required empty
  string. -/
theorem renderInvoiceToHtml_and_template_at_position_zero :
    (renderInvoiceToHtml id
        "\x7binvoice.notes && <p>Notes: \x7binvoice.notes\x7d</p>\x7d"
        sampleContext).result =
      .ok "\x7binvoice.notes && <p>Notes: null</p>\x7d" ∧
    (Except.ok "\x7binvoice.notes && <p>Notes: null</p>\x7d" :
      Except String String) ≠ .ok "" := by
  exact ⟨by decide, by decide⟩

/-- C8 amended: the logical-AND converter rewrites the expression to
  `condition ? compiledMarkup : \x27\x27`, and when the expression is
  not at template position 0 rendering behaves as the spec's scenario
  demands: the empty string for `invoice.notes = null`, the markup with
  the note text for `invoice.notes = "Thanks"`. -/
theorem convertAndExpression_short_circuit :
    convertAndExpression 200 "invoice.notes && <p>Notes: \x7binvoice.notes\x7d</p>" =
      "invoice.notes ? \x60<p>Notes: $\x7binvoice.notes\x7d</p>\x60 : \x27\x27" ∧
    (renderInvoiceToHtml id
        "<div>\x7binvoice.notes && <p>Notes: \x7binvoice.notes\x7d</p>\x7d</div>"
        sampleContext).result = .ok "<div></div>" ∧
    (renderInvoiceToHtml id
        "<div>\x7binvoice.notes && <p>Notes: \x7binvoice.notes\x7d</p>\x7d</div>"
        sampleContextNotes).result = .ok "<div><p>Notes: Thanks</p></div>" := by
  exact ⟨by decide, by decide, by decide⟩
